import Mathlib

/-!
Verification development for the SwiftType keystroke-replacement engine.

Rust strings are embedded as `List Char` (a Rust `String` is valid UTF-8, so
byte-level `ends_with` / `contains` on strings coincide with suffix / infix
on the character lists, while `String::len` is the UTF-8 byte count, embedded
separately as `utf8Len`).  Each definition is a direct translation of the
function of the same name in the repository; the file and line of the source
are given in the doc comments.
-/

namespace SwiftType

/-- Rust `char::len_utf8` (the number of UTF-8 bytes of one character). -/
def utf8Size (c : Char) : Nat :=
  if c.toNat < 0x80 then 1
  else if c.toNat < 0x800 then 2
  else if c.toNat < 0x10000 then 3
  else 4

/-- Rust `String::len` of the string holding these characters: its UTF-8 byte count. -/
def utf8Len (s : List Char) : Nat := s.foldl (fun n c => n + utf8Size c) 0

/-- `Key::to_char` from `src/keyboard/key.rs` lines 12-54: maps a virtual key
code to an optional printable character, arm by arm in source order.  The
letter range `0x41..=0x5A` is `(b'a' + (vk - 0x41)) as char`, i.e. a lowercase
letter; the function takes no modifier state. -/
def to_char (vk : Nat) : Option Char :=
  if vk = 0x08 then none
  else if vk = 0x09 then none
  else if vk = 0x0D then none
  else if vk = 0x1B then none
  else if vk = 0x20 then some (Char.ofNat 32)
  else if 0x30 ≤ vk ∧ vk ≤ 0x39 then some (Char.ofNat (48 + (vk - 0x30)))
  else if 0x41 ≤ vk ∧ vk ≤ 0x5A then some (Char.ofNat (97 + (vk - 0x41)))
  else if 0x60 ≤ vk ∧ vk ≤ 0x69 then some (Char.ofNat (48 + (vk - 0x60)))
  else if vk = 0x6A then some (Char.ofNat 42)
  else if vk = 0x6B then some (Char.ofNat 43)
  else if vk = 0x6D then some (Char.ofNat 45)
  else if vk = 0x6E then some (Char.ofNat 46)
  else if vk = 0x6F then some (Char.ofNat 47)
  else if vk = 0xBA then some (Char.ofNat 59)
  else if vk = 0xBB then some (Char.ofNat 61)
  else if vk = 0xBC then some (Char.ofNat 44)
  else if vk = 0xBD then some (Char.ofNat 45)
  else if vk = 0xBE then some (Char.ofNat 46)
  else if vk = 0xBF then some (Char.ofNat 47)
  else if vk = 0xC0 then some (Char.ofNat 64)
  else if vk = 0xDB then some (Char.ofNat 91)
  else if vk = 0xDC then some (Char.ofNat 92)
  else if vk = 0xDD then some (Char.ofNat 93)
  else if vk = 0xDE then some (Char.ofNat 39)
  else if vk = 0xE2 then some (Char.ofNat 95)
  else none

/-- `KeyboardState` from `src/keyboard/mod.rs` lines 16-22: the rolling
keyword buffer and its capacity. -/
structure KeyboardState where
  buffer : List Char
  buffer_size : Nat
deriving DecidableEq

/-- `KeyboardState::new` (`src/keyboard/mod.rs` lines 29-34). -/
def KeyboardState.new (buffer_size : Nat) : KeyboardState := ⟨[], buffer_size⟩

/-- `KeyboardState::add_char` (`src/keyboard/mod.rs` lines 57-64): push the
character, then drop the oldest one (`remove(0)`) if the length now exceeds
the capacity.  There is no special case for any character. -/
def KeyboardState.add_char (st : KeyboardState) (c : Char) : KeyboardState :=
  let b := st.buffer ++ [c]
  if b.length > st.buffer_size then ⟨b.drop 1, st.buffer_size⟩
  else ⟨b, st.buffer_size⟩

/-- `KeyboardState::should_check_replacement` (`src/keyboard/mod.rs` lines 51-54). -/
def KeyboardState.should_check_replacement (st : KeyboardState) : Bool :=
  st.buffer.length ≥ 2

/-- `KeyboardState::clear_buffer` (`src/keyboard/mod.rs` lines 67-69). -/
def KeyboardState.clear_buffer (st : KeyboardState) : KeyboardState :=
  ⟨[], st.buffer_size⟩

/-- `KeyboardState::get_keyword_candidate` (`src/keyboard/mod.rs` lines 105-107):
the buffer contents as a string. -/
def KeyboardState.get_keyword_candidate (st : KeyboardState) : List Char :=
  st.buffer

/-- `KeyboardState::process_key_event` (`src/keyboard/mod.rs` lines 41-48):
on `WM_KEYDOWN` (0x0100) or `WM_SYSKEYDOWN` (0x0104), map the key and push the
resulting character, if any. -/
def KeyboardState.process_key_event (st : KeyboardState) (msg vk : Nat) : KeyboardState :=
  if msg = 0x0100 ∨ msg = 0x0104 then
    match to_char vk with
    | some c => st.add_char c
    | none => st
  else st

/-- `SnippetType` from `src/config/settings.rs` lines 6-11. -/
inductive SnippetType where
  | Static
  | Dynamic
deriving DecidableEq

/-- `Snippet` from `src/config/settings.rs` lines 15-28. -/
structure Snippet where
  name : List Char
  keyword : List Char
  content : List Char
  snippet_type : SnippetType
  category : List Char
  enabled : Bool
deriving DecidableEq

/-- The fields of `Settings` (`src/config/settings.rs` lines 61-72) read by the
replacement engine: the global enable flag and the snippet list. -/
structure Settings where
  enabled : Bool
  snippets : List Snippet
deriving DecidableEq

/-- The keyword sanitization performed by `ConfigManager::new` and
`ConfigManager::update_settings` (`src/config/mod.rs` lines 45-51 and 77-84):
each of `=` `;` `,` in a keyword is replaced by `_` when settings are loaded
or saved.  (The Rust code applies three successive single-character
`str::replace` calls, which amounts to this character map.) -/
def normalize_keyword (s : List Char) : List Char :=
  s.map (fun c =>
    if c = Char.ofNat 61 ∨ c = Char.ofNat 59 ∨ c = Char.ofNat 44 then Char.ofNat 95 else c)

/-- Rust `str::contains(pat)`: `pat` occurs as a substring.  On valid UTF-8 the
byte-level search coincides with the character-level one. -/
def str_contains (s pat : List Char) : Bool :=
  if pat.isPrefixOf s then true
  else
    match s with
    | [] => false
    | _ :: rest => str_contains rest pat

/-- Rust `str::ends_with(pat)` as used in `buffer.ends_with(&snippet.keyword)`
(`src/replacement/mod.rs` line 34). -/
def ends_with (s pat : List Char) : Bool := pat.isSuffixOf s

/-- Recursion core of `str_replace`.  The fuel argument only bounds the
recursion depth for the termination checker: every step consumes at least one
character of `s` (the pattern is non-empty), so fuel `s.length` is never
exhausted before `s` is. -/
def replaceFuel (pat rep : List Char) : Nat → List Char → List Char
  | _, [] => []
  | 0, s => s
  | fuel + 1, c :: rest =>
    if pat.isPrefixOf (c :: rest) then
      rep ++ replaceFuel pat rep fuel ((c :: rest).drop pat.length)
    else
      c :: replaceFuel pat rep fuel rest

/-- Rust `str::replace(pat, rep)`: replace every non-overlapping occurrence of
`pat`, scanning left to right. -/
def str_replace (s pat rep : List Char) : List Char :=
  if pat = [] then s else replaceFuel pat rep s.length s

/-- Local wall-clock time, the argument `chrono::Local::now()` supplies to
`format_date` (`src/replacement/formatter.rs` line 51); the claims quantify
over it, so it is passed explicitly. -/
structure LocalTime where
  year : Nat
  month : Nat
  day : Nat
  hour : Nat
  minute : Nat
  second : Nat
deriving DecidableEq

/-- Decimal digits of `n` (chrono prints calendar fields in decimal). -/
def natDigits (n : Nat) : List Char := Nat.toDigits 10 n

/-- A calendar field zero-padded to at least two digits, as chrono's
`%m %d %H %M %S %y` render it. -/
def pad2 (n : Nat) : List Char :=
  if n < 10 then Char.ofNat 48 :: natDigits n else natDigits n

/-- A year zero-padded to at least four digits, as chrono's `%Y` renders it. -/
def pad4 (n : Nat) : List Char :=
  if n < 10 then Char.ofNat 48 :: Char.ofNat 48 :: Char.ofNat 48 :: natDigits n
  else if n < 100 then Char.ofNat 48 :: Char.ofNat 48 :: natDigits n
  else if n < 1000 then Char.ofNat 48 :: natDigits n
  else natDigits n

/-- Models chrono's strftime rendering (`now.format(..)` at
`src/replacement/formatter.rs` line 64) for the specifiers `format_date` can
produce: `%Y %y %m %d %H %M %S`.  Every character outside a recognized
specifier is emitted literally, which is chrono's documented behaviour. -/
def chronoRender (t : LocalTime) : List Char → List Char
  | [] => []
  | c :: rest =>
    if c = Char.ofNat 37 then
      match rest with
      | [] => []
      | d :: rest2 =>
        (if d = Char.ofNat 89 then pad4 t.year
         else if d = Char.ofNat 121 then pad2 (t.year % 100)
         else if d = Char.ofNat 109 then pad2 t.month
         else if d = Char.ofNat 100 then pad2 t.day
         else if d = Char.ofNat 72 then pad2 t.hour
         else if d = Char.ofNat 77 then pad2 t.minute
         else if d = Char.ofNat 83 then pad2 t.second
         else [Char.ofNat 37, d]) ++ chronoRender t rest2
    else c :: chronoRender t rest

/-- `format_date` from `src/replacement/formatter.rs` lines 50-68: rewrite the
placeholder names to chrono specifiers with successive `str::replace` calls in
source order, then render at the current local time. -/
def format_date (t : LocalTime) (format : List Char) : List Char :=
  let chrono_format :=
    str_replace (str_replace (str_replace (str_replace (str_replace (str_replace (str_replace
      format "yyyy".data "%Y".data) "yy".data "%y".data) "MM".data "%m".data)
      "dd".data "%d".data) "HH".data "%H".data) "mm".data "%M".data) "ss".data "%S".data
  chronoRender t chrono_format

/-- The `date_re.replace_all` step of `format_dynamic_content`
(`src/replacement/formatter.rs` lines 32-43): every span matching the regex
`\x7bdate:([^\x7d]+)\x7d` is replaced by `format_date` of its capture,
scanning left to right; text outside the spans is kept. -/
def replaceDatePatterns (t : LocalTime) (s : List Char) : List Char :=
  match s with
  | [] => []
  | c :: rest =>
    if "\x7bdate:".data.isPrefixOf (c :: rest) then
      let after := (c :: rest).drop 6
      let capture := after.takeWhile (fun d => d ≠ Char.ofNat 125)
      let remainder := after.dropWhile (fun d => d ≠ Char.ofNat 125)
      match h1 : remainder, capture with
      | _b :: rest2, _e :: _cap => format_date t capture ++ replaceDatePatterns t rest2
      | _, _ => c :: replaceDatePatterns t rest
    else c :: replaceDatePatterns t rest
termination_by s.length
decreasing_by
  · have h2 := (List.dropWhile_sublist (l := after) (fun d => d ≠ Char.ofNat 125)).length_le
    rw [show after.dropWhile (fun d => d ≠ Char.ofNat 125) = _b :: rest2 from h1] at h2
    have h3 : after.length ≤ rest.length := by
      simp only [after, List.length_drop, List.length_cons]; omega
    simp only [List.length_cons] at h2 ⊢
    omega
  · simp only [List.length_cons]; omega
  · simp only [List.length_cons]; omega

/-- `format_dynamic_content` from `src/replacement/formatter.rs` lines 18-47:
if the template contains any bare placeholder name (`yyyy MM dd HH mm ss`) the
WHOLE template is handed to `format_date`; otherwise `\x7bdate:...\x7d` spans, if
present, are replaced individually; otherwise the template is returned
unchanged. -/
def format_dynamic_content (t : LocalTime) (template : List Char) : List Char :=
  if str_contains template "yyyy".data || str_contains template "MM".data ||
     str_contains template "dd".data || str_contains template "HH".data ||
     str_contains template "mm".data || str_contains template "ss".data then
    format_date t template
  else if str_contains template "\x7bdate:".data then
    replaceDatePatterns t template
  else template

/-- The replacement text a matched snippet resolves to
(`src/replacement/mod.rs` lines 38-46): `Static` content verbatim, `Dynamic`
content through `format_dynamic_content`. -/
def resolveContent (t : LocalTime) (s : Snippet) : List Char :=
  match s.snippet_type with
  | SnippetType.Static => s.content
  | SnippetType.Dynamic => format_dynamic_content t s.content

/-- The snippet loop of `ReplacementEngine::check_for_replacements`
(`src/replacement/mod.rs` lines 33-50): iterate the snippets in list order,
keeping only enabled ones (`filter(|s| s.enabled)`), and return the resolved
content of the first whose keyword the buffer ends with.  The matched
keyword itself is NOT returned. -/
def checkSnippetsLoop (t : LocalTime) (buffer : List Char) :
    List Snippet → Option (List Char)
  | [] => none
  | s :: rest =>
    if s.enabled then
      if ends_with buffer s.keyword then some (resolveContent t s)
      else checkSnippetsLoop t buffer rest
    else checkSnippetsLoop t buffer rest

/-- `ReplacementEngine::check_for_replacements` (`src/replacement/mod.rs`
lines 23-54): `None` when globally disabled, otherwise the first enabled
snippet whose keyword is a suffix of the buffer. -/
def check_for_replacements (t : LocalTime) (settings : Settings)
    (buffer : List Char) : Option (List Char) :=
  if settings.enabled then checkSnippetsLoop t buffer settings.snippets
  else none

/-- What the hook hands to the synthesizer on a hit: the replacement text and
the second argument of `perform_replacement_with_backspace`. -/
structure HookAction where
  replacement : List Char
  erase_count : Nat
deriving DecidableEq

/-- The free function `process_key_event` of `src/keyboard/hook.rs` lines
102-155, restricted to its decision logic: update the buffer, and on a hit
clear the buffer and call
`perform_replacement_with_backspace(&replacement, keyword.len())`
(line 136) where `keyword` is the WHOLE buffer candidate and `.len()` is its
UTF-8 byte count.  The returned `HookAction` records that call's arguments. -/
def hook_process_key_event (t : LocalTime) (settings : Settings)
    (st : KeyboardState) (msg vk : Nat) : KeyboardState × Option HookAction :=
  let st := st.process_key_event msg vk
  if st.should_check_replacement then
    let keyword := st.get_keyword_candidate
    if keyword.isEmpty then (st, none)
    else
      match check_for_replacements t settings keyword with
      | some replacement => (st.clear_buffer, some ⟨replacement, utf8Len keyword⟩)
      | none => (st, none)
  else (st, none)

/-!
The input-synthesizer pipeline (`src/replacement/mod.rs`).  The Win32
`SendInput` / clipboard / sleep calls are effectful; the embedding keeps the
exact branch structure of the Rust and records the observable actions in a
trace, while an `Env` record supplies the success/failure outcome of each
OS-level primitive (each boolean stands for "all `SendInput` calls of that
phase reported success" exactly as the Rust checks them).
-/

/-- Observable actions of the synthesizer. -/
inductive Ev where
  /-- one `reset_modifier_keys` call (`src/replacement/mod.rs` lines 1234-1276) -/
  | reset
  /-- one backspace key-down/key-up pair sent by `simulate_backspace` -/
  | backspace
  /-- the arrow-key dance of `stabilize_cursor_position` -/
  | stabilize
  /-- the Home/End dance of `anchor_cursor_to_line` -/
  | anchor
  /-- direct Unicode character injection of the replacement text -/
  | directInput
  /-- `clipboard.set_text(t)` -/
  | clipSet (t : List Char)
  /-- the Ctrl+V synthesis of `simulate_paste_simple` -/
  | pasteSimple
  /-- the Shift+Insert synthesis of `simulate_paste_alternative` -/
  | pasteAlt
deriving DecidableEq

/-- Outcomes of the OS-level primitives for one run of the pipeline. -/
structure Env where
  /-- outcome of `perform_selection_replacement`, first attempt -/
  selectionOk1 : Bool
  /-- outcome of `perform_selection_replacement`, second attempt -/
  selectionOk2 : Bool
  /-- conjunction of the `SendInput` outcomes inside `simulate_backspace` -/
  backspaceOk : Bool
  /-- outcome of `simulate_direct_char_input` -/
  directOk : Bool
  /-- outcome of `simulate_safe_direct_input` -/
  safeDirectOk : Bool
  /-- `Clipboard::new()` succeeded -/
  clipboardOk : Bool
  /-- the clipboard text present before the call (read by `get_text`) -/
  clip0 : List Char
  /-- `clipboard.set_text(text)` succeeded -/
  setTextOk : Bool
  /-- outcome of `simulate_paste_simple` -/
  pasteSimpleOk : Bool
  /-- outcome of `simulate_paste_alternative` -/
  pasteAltOk : Bool
deriving DecidableEq

/-- `anchor_cursor_to_line` (`src/replacement/mod.rs` lines 496-639): resets
the modifier keys first, then presses Home/End (and arrow keys); always
reports `true`. -/
def anchor_cursor_to_line : List Ev := [Ev.reset, Ev.anchor]

/-- `stabilize_cursor_position` (`src/replacement/mod.rs` lines 651-731):
resets the modifier keys first, then presses Left/Right; always reports
`true`. -/
def stabilize_cursor_position : List Ev := [Ev.reset, Ev.stabilize]

/-- `simulate_backspace` (`src/replacement/mod.rs` lines 783-897): with
`count = 0` it returns `true` at once; otherwise the loop sends exactly
`count` backspace key-down/key-up pairs — it never truncates the count —
and reports whether every `SendInput` succeeded. -/
def simulate_backspace (count : Nat) (ok : Bool) : List Ev × Bool :=
  if count = 0 then ([], true)
  else (List.replicate count Ev.backspace, ok)

/-- `simulate_paste_simple` (`src/replacement/mod.rs` lines 900-1047): resets
the modifier keys first; on any failed `SendInput` it resets them again and
reports `false`. -/
def simulate_paste_simple (ok : Bool) : List Ev × Bool :=
  ([Ev.reset] ++ (if ok then [Ev.pasteSimple] else [Ev.reset]), ok)

/-- `simulate_paste_alternative` (`src/replacement/mod.rs` lines 1090-1231):
Shift+Insert variant, same reset discipline as `simulate_paste_simple`. -/
def simulate_paste_alternative (ok : Bool) : List Ev × Bool :=
  ([Ev.reset] ++ (if ok then [Ev.pasteAlt] else [Ev.reset]), ok)

/-- `simulate_direct_char_input` (`src/replacement/mod.rs` lines 1050-1087):
plain Unicode injection, no modifier reset anywhere. -/
def simulate_direct_char_input (ok : Bool) : List Ev × Bool :=
  ([Ev.directInput], ok)

/-- `simulate_safe_direct_input` (`src/replacement/mod.rs` lines 734-780):
resets the modifier keys, then injects the characters. -/
def simulate_safe_direct_input (ok : Bool) : List Ev × Bool :=
  ([Ev.reset, Ev.directInput], ok)

/-- `perform_selection_replacement` (`src/replacement/mod.rs` lines 219-444):
its first action is a `reset_modifier_keys`, then it anchors and stabilizes
the cursor; on success it types the replacement over the selection (which
itself starts with a reset, via `simulate_safe_direct_input_with_longer_waits`)
and re-anchors.  The Shift/arrow selection sends are summarized by the `ok`
outcome. -/
def perform_selection_replacement (ok : Bool) : List Ev × Bool :=
  ([Ev.reset] ++ anchor_cursor_to_line ++ stabilize_cursor_position ++
    (if ok then anchor_cursor_to_line ++ [Ev.reset, Ev.directInput] ++ anchor_cursor_to_line
     else []), ok)

/-- The clipboard-paste phase of `perform_replacement_with_backspace`
(`src/replacement/mod.rs` lines 167-216): open the clipboard (else `false`),
save the old text, set the new text (on error `false`), Ctrl+V, on failure
Shift+Insert, and ONLY when both fail restore the saved text; on a successful
paste it returns `true` with the replacement text still on the clipboard. -/
def clipboardPhase (e : Env) (text : List Char) (hr : Bool) : List Ev × Bool :=
  if e.clipboardOk then
    if e.setTextOk then
      let p1 := simulate_paste_simple e.pasteSimpleOk
      if p1.2 then
        (Ev.clipSet text :: p1.1 ++ (if hr then anchor_cursor_to_line else []), true)
      else
        let p2 := simulate_paste_alternative e.pasteAltOk
        if p2.2 then
          (Ev.clipSet text :: p1.1 ++ p2.1 ++ (if hr then anchor_cursor_to_line else []), true)
        else
          (Ev.clipSet text :: p1.1 ++ p2.1 ++ [Ev.clipSet e.clip0], false)
    else ([], false)
  else ([], false)

/-- The backspace-then-insert phase of `perform_replacement_with_backspace`
(`src/replacement/mod.rs` lines 109-216): send `keyword_length` backspaces
(`adjusted_length = keyword_length`, line 117 — no clamping) and return
`false` immediately if that fails; then, for short ASCII text, try direct
input; otherwise or on failure, the clipboard phase. -/
def backspacePhase (e : Env) (text : List Char) (keyword_length : Nat) (hr : Bool) :
    List Ev × Bool :=
  let bs := simulate_backspace keyword_length e.backspaceOk
  if bs.2 then
    let mid := if hr then stabilize_cursor_position ++ anchor_cursor_to_line else []
    if utf8Len text ≤ 30 && text.all (fun c => c.toNat ≤ 127) then
      let di := if hr then simulate_safe_direct_input e.safeDirectOk
                else simulate_direct_char_input e.directOk
      if di.2 then
        (bs.1 ++ mid ++ di.1 ++ (if hr then anchor_cursor_to_line else []), true)
      else
        let cp := clipboardPhase e text hr
        (bs.1 ++ mid ++ di.1 ++ cp.1, cp.2)
    else
      let cp := clipboardPhase e text hr
      (bs.1 ++ mid ++ cp.1, cp.2)
  else (bs.1, false)

/-- `ReplacementEngine::perform_replacement_with_backspace`
(`src/replacement/mod.rs` lines 73-216): for the high-risk keyword-length band
5..=9, up to two selection-based attempts first (a failed attempt is followed
by a `reset_modifier_keys`); then the backspace phase. -/
def perform_replacement_with_backspace (e : Env) (text : List Char)
    (keyword_length : Nat) : List Ev × Bool :=
  let hr : Bool := decide (5 ≤ keyword_length ∧ keyword_length ≤ 9)
  if hr then
    let s1 := perform_selection_replacement e.selectionOk1
    if s1.2 then (s1.1, true)
    else
      let s2 := perform_selection_replacement e.selectionOk2
      if s2.2 then (s1.1 ++ [Ev.reset] ++ s2.1, true)
      else
        let rest := backspacePhase e text keyword_length hr
        (s1.1 ++ [Ev.reset] ++ s2.1 ++ [Ev.reset] ++ rest.1, rest.2)
  else backspacePhase e text keyword_length hr

/-- The clipboard text after the call: the last `clipSet` in the trace wins. -/
def clipAfter (init : List Char) (tr : List Ev) : List Char :=
  tr.foldl (fun cur ev =>
    match ev with
    | Ev.clipSet t => t
    | _ => cur) init

/-- The keyboard state reached from an empty buffer of capacity `N` after a
sequence of raw `(msg, vk)` key events, each handled by
`KeyboardState::process_key_event`. -/
def bufferOfEvents (N : Nat) (evs : List (Nat × Nat)) : KeyboardState :=
  evs.foldl (fun st e => st.process_key_event e.1 e.2) (KeyboardState.new N)

/-! Concrete fixtures used by the witnesses and counterexamples. -/

/-- A fixed sample wall-clock instant: 2026-10-12 12:34:56 local time. -/
def fixedTime : LocalTime := ⟨2026, 10, 12, 12, 34, 56⟩

/-- The first snippet of the repository's own test fixture
(`tests/replacement_test.rs` lines 23-29). -/
def snippetTest1 : Snippet :=
  ⟨"Test Snippet 1".data, "test1".data, "Replacement 1".data,
   SnippetType.Static, "Test".data, true⟩

/-- The second snippet of the repository's own test fixture
(`tests/replacement_test.rs` lines 30-36). -/
def snippetTest2 : Snippet :=
  ⟨"Test Snippet 2".data, "test2".data, "Replacement 2".data,
   SnippetType.Static, "Test".data, true⟩

/-- A DISABLED snippet whose keyword `st1` is a suffix of `xx test1`. -/
def snippetDisabledMatch : Snippet :=
  ⟨"Disabled".data, "st1".data, "Other".data, SnippetType.Static, "Test".data, false⟩

/-- An enabled snippet whose stored keyword still contains `=` (as it would
after being written by a version that did not sanitize it). -/
def snippetEq : Snippet :=
  ⟨"Eq".data, "a=b".data, "X".data, SnippetType.Static, "Cat".data, true⟩

/-- The test-fixture settings: enabled, `test1` and `test2` snippets. -/
def settingsTest : Settings := ⟨true, [snippetTest1, snippetTest2]⟩

/-- Settings where a disabled matching snippet precedes an enabled one. -/
def settingsOrder : Settings := ⟨true, [snippetDisabledMatch, snippetTest1]⟩

/-- Settings holding only the unsanitized `a=b` snippet. -/
def settingsEq : Settings := ⟨true, [snippetEq]⟩

/-- Environment in which the backspace `SendInput`s fail and everything else
would succeed. -/
def envBackspaceFail : Env :=
  ⟨false, false, false, true, true, true, "orig".data, true, true, true⟩

/-- Environment in which every primitive succeeds (selection not attempted
outside the high-risk band). -/
def envAllOk : Env :=
  ⟨false, false, true, true, true, true, "orig".data, true, true, true⟩

/-- Environment in which direct input fails but the Ctrl+V paste succeeds. -/
def envPasteSucceeds : Env :=
  ⟨false, false, true, false, false, true, "orig".data, true, true, true⟩

/-- Environment in which direct input and both paste shortcuts fail. -/
def envPasteFails : Env :=
  ⟨false, false, true, false, false, true, "orig".data, true, false, false⟩

/-! ## Helper lemmas -/

/-- Virtual key codes above the last mapped one (0xE2) map to no character. -/
theorem to_char_eq_none_of_ge (vk : Nat) (h : 227 ≤ vk) : to_char vk = none := by
  unfold to_char
  rw [if_neg (by omega : ¬vk = 0x08), if_neg (by omega : ¬vk = 0x09),
    if_neg (by omega : ¬vk = 0x0D), if_neg (by omega : ¬vk = 0x1B),
    if_neg (by omega : ¬vk = 0x20),
    if_neg (by omega : ¬(0x30 ≤ vk ∧ vk ≤ 0x39)),
    if_neg (by omega : ¬(0x41 ≤ vk ∧ vk ≤ 0x5A)),
    if_neg (by omega : ¬(0x60 ≤ vk ∧ vk ≤ 0x69)),
    if_neg (by omega : ¬vk = 0x6A), if_neg (by omega : ¬vk = 0x6B),
    if_neg (by omega : ¬vk = 0x6D), if_neg (by omega : ¬vk = 0x6E),
    if_neg (by omega : ¬vk = 0x6F), if_neg (by omega : ¬vk = 0xBA),
    if_neg (by omega : ¬vk = 0xBB), if_neg (by omega : ¬vk = 0xBC),
    if_neg (by omega : ¬vk = 0xBD), if_neg (by omega : ¬vk = 0xBE),
    if_neg (by omega : ¬vk = 0xBF), if_neg (by omega : ¬vk = 0xC0),
    if_neg (by omega : ¬vk = 0xDB), if_neg (by omega : ¬vk = 0xDC),
    if_neg (by omega : ¬vk = 0xDD), if_neg (by omega : ¬vk = 0xDE),
    if_neg (by omega : ¬vk = 0xE2)]

set_option maxRecDepth 4096 in
/-- Every character `to_char` can produce is neither uppercase nor a line
terminator (checked exhaustively below the cutoff of
`to_char_eq_none_of_ge`). -/
theorem to_char_output_tame :
    ∀ vk, vk < 227 →
      (to_char vk).all (fun c => !c.isUpper && (c.toNat != 10) && (c.toNat != 13)) = true := by
  decide

/-- Pointwise form of `to_char_output_tame`, for all virtual key codes. -/
theorem to_char_facts (vk : Nat) (c : Char) (h : to_char vk = some c) :
    c.isUpper = false ∧ c.toNat ≠ 10 ∧ c.toNat ≠ 13 := by
  by_cases hlt : vk < 227
  · have h2 := to_char_output_tame vk hlt
    rw [h] at h2
    simp only [Option.all_some, Bool.and_eq_true, bne_iff_ne, ne_eq,
      Bool.not_eq_true'] at h2
    tauto
  · rw [to_char_eq_none_of_ge vk (by omega)] at h
    cases h

/-- A character of the buffer after `add_char` was already there or was the
pushed one. -/
theorem mem_add_char {st : KeyboardState} {c x : Char}
    (h : x ∈ (st.add_char c).buffer) : x ∈ st.buffer ∨ x = c := by
  have h2 : x ∈ st.buffer ++ [c] := by
    simp only [KeyboardState.add_char] at h
    split at h
    · exact List.mem_of_mem_drop h
    · exact h
  rcases List.mem_append.mp h2 with h3 | h3
  · exact Or.inl h3
  · simp only [List.mem_singleton] at h3
    exact Or.inr h3

/-- Processing key events preserves "no uppercase character in the buffer". -/
theorem buffer_no_upper_aux (evs : List (Nat × Nat)) (st : KeyboardState)
    (hst : ∀ x ∈ st.buffer, x.isUpper = false) :
    ∀ x ∈ (evs.foldl (fun s e => s.process_key_event e.1 e.2) st).buffer,
      x.isUpper = false := by
  induction evs generalizing st with
  | nil => simpa using hst
  | cons e rest ih =>
    simp only [List.foldl_cons]
    apply ih
    intro x hx
    simp only [KeyboardState.process_key_event] at hx
    split at hx
    · cases hc : to_char e.2 with
      | none => rw [hc] at hx; exact hst x hx
      | some c =>
        rw [hc] at hx
        rcases mem_add_char hx with h3 | h3
        · exact hst x h3
        · rw [h3]; exact (to_char_facts e.2 c hc).1
    · exact hst x hx

/-- One `add_char` step, written as a window: append and drop the overflow. -/
theorem add_char_buffer (st : KeyboardState) (c : Char)
    (h : st.buffer.length ≤ st.buffer_size) :
    (st.add_char c).buffer =
      (st.buffer ++ [c]).drop (st.buffer.length + 1 - st.buffer_size) ∧
    (st.add_char c).buffer_size = st.buffer_size ∧
    (st.add_char c).buffer.length ≤ st.buffer_size := by
  simp only [KeyboardState.add_char]
  split_ifs with hgt
  · simp only [List.length_append, List.length_cons, List.length_nil] at hgt
    have h1 : st.buffer.length + 1 - st.buffer_size = 1 := by omega
    rw [h1]
    refine ⟨rfl, rfl, ?_⟩
    simp only [List.length_drop, List.length_append, List.length_cons, List.length_nil]
    omega
  · simp only [List.length_append, List.length_cons, List.length_nil] at hgt
    have h1 : st.buffer.length + 1 - st.buffer_size = 0 := by omega
    rw [h1, List.drop_zero]
    refine ⟨rfl, rfl, ?_⟩
    simp only [List.length_append, List.length_cons, List.length_nil]
    omega

/-- Folding `add_char` over a character list keeps a window of the last
`buffer_size` characters. -/
theorem foldl_add_char (cs : List Char) (st : KeyboardState)
    (h : st.buffer.length ≤ st.buffer_size) :
    (cs.foldl KeyboardState.add_char st).buffer =
      (st.buffer ++ cs).drop (st.buffer.length + cs.length - st.buffer_size) ∧
    (cs.foldl KeyboardState.add_char st).buffer_size = st.buffer_size ∧
    (cs.foldl KeyboardState.add_char st).buffer.length ≤ st.buffer_size := by
  induction cs generalizing st with
  | nil =>
    refine ⟨?_, rfl, h⟩
    have h1 : st.buffer.length + List.length ([] : List Char) - st.buffer_size = 0 := by
      simp only [List.length_nil]; omega
    rw [List.foldl_nil, List.append_nil, h1, List.drop_zero]
  | cons c rest ih =>
    obtain ⟨h1, h2, h3⟩ := add_char_buffer st c h
    have ih2 := ih (st.add_char c) (by rw [h2]; exact h3)
    rw [h1, h2] at ih2
    simp only [List.foldl_cons]
    obtain ⟨g1, g2, g3⟩ := ih2
    refine ⟨?_, g2, g3⟩
    rw [g1]
    have hk : st.buffer.length + 1 - st.buffer_size ≤ (st.buffer ++ [c]).length := by
      simp only [List.length_append, List.length_cons, List.length_nil]
      omega
    rw [← List.drop_append_of_le_length hk, List.drop_drop]
    have hassoc : (st.buffer ++ [c]) ++ rest = st.buffer ++ (c :: rest) := by
      simp
    rw [hassoc]
    congr 1
    simp only [List.length_drop, List.length_append, List.length_cons, List.length_nil]
    omega

/-- The snippet loop returns the first enabled direct-suffix snippet. -/
theorem checkSnippetsLoop_first (t : LocalTime) (buf : List Char)
    (pre post : List Snippet) (s : Snippet)
    (hsen : s.enabled = true) (hmatch : ends_with buf s.keyword = true)
    (hpre : ∀ s2 ∈ pre, s2.enabled = true → ends_with buf s2.keyword = false) :
    checkSnippetsLoop t buf (pre ++ s :: post) = some (resolveContent t s) := by
  induction pre with
  | nil =>
    simp only [List.nil_append, checkSnippetsLoop, hsen, hmatch, if_true]
  | cons p rest ih =>
    simp only [List.cons_append, checkSnippetsLoop]
    by_cases hpe : p.enabled = true
    · rw [if_pos hpe, hpre p (List.mem_cons_self p rest) hpe, if_neg (by simp)]
      exact ih (fun s2 hs2 => hpre s2 (List.mem_cons_of_mem p hs2))
    · rw [if_neg hpe]
      exact ih (fun s2 hs2 => hpre s2 (List.mem_cons_of_mem p hs2))

/-- The snippet loop succeeds exactly when some enabled snippet's keyword is a
direct suffix of the buffer — there is no other way to match. -/
theorem checkSnippetsLoop_isSome (t : LocalTime) (buf : List Char)
    (l : List Snippet) :
    (checkSnippetsLoop t buf l).isSome = true ↔
      ∃ s ∈ l, s.enabled = true ∧ ends_with buf s.keyword = true := by
  induction l with
  | nil => simp [checkSnippetsLoop]
  | cons p rest ih =>
    simp only [checkSnippetsLoop]
    by_cases hpe : p.enabled = true
    · by_cases hpm : ends_with buf p.keyword = true
      · simp [hpe, hpm]
      · rw [if_pos hpe, if_neg hpm]
        rw [ih]
        constructor
        · rintro ⟨s, hs, h1, h2⟩
          exact ⟨s, List.mem_cons_of_mem p hs, h1, h2⟩
        · rintro ⟨s, hs, h1, h2⟩
          rcases List.mem_cons.mp hs with hh | hh
          · subst hh; exact absurd h2 hpm
          · exact ⟨s, hh, h1, h2⟩
    · rw [if_neg hpe]
      rw [ih]
      constructor
      · rintro ⟨s, hs, h1, h2⟩
        exact ⟨s, List.mem_cons_of_mem p hs, h1, h2⟩
      · rintro ⟨s, hs, h1, h2⟩
        rcases List.mem_cons.mp hs with hh | hh
        · subst hh; exact absurd h1 hpe
        · exact ⟨s, hh, h1, h2⟩

/-- `clipAfter` splits over trace concatenation. -/
theorem clipAfter_append (init : List Char) (l1 l2 : List Ev) :
    clipAfter init (l1 ++ l2) = clipAfter (clipAfter init l1) l2 :=
  List.foldl_append ..

/-- Backspace events do not touch the clipboard. -/
theorem clipAfter_replicate_backspace (init : List Char) (n : Nat) :
    clipAfter init (List.replicate n Ev.backspace) = init := by
  induction n with
  | zero => rfl
  | succ k ih => simpa [clipAfter, List.replicate] using ih

/-! ## Claim theorems -/

/-- C1: the claim says the erase count handed to
`perform_replacement_with_backspace` equals the character count of the matched
keyword.  Evaluating the hook at the failing input (buffer `a test`, then the
key `1`, with the enabled snippet keyword `test1`) shows the code instead
passes 7 — the UTF-8 byte length of the WHOLE buffer candidate `a test1` —
where the matched keyword `test1` has 5 characters. -/
theorem c1_erase_count_is_candidate_byte_length :
    (hook_process_key_event fixedTime settingsTest ⟨"a test".data, 100⟩ 0x0100 0x31).2 =
      some ⟨"Replacement 1".data, 7⟩ ∧
    ("test1".data).length = 5 ∧ utf8Len "a test1".data = 7 := by
  decide

/-- C2 counterexample: with a non-high-risk keyword length (3) and a failing
`simulate_backspace`, `perform_replacement_with_backspace` returns `false`
without any `reset_modifier_keys` in its trace — the modifier-reset step is
NOT executed on this exit path, contrary to the claim. -/
theorem c2_counterexample_no_reset_on_backspace_failure :
    (perform_replacement_with_backspace envBackspaceFail "Hi".data 3).2 = false ∧
    Ev.reset ∉ (perform_replacement_with_backspace envBackspaceFail "Hi".data 3).1 := by
  decide

/-- C2 amended: for keyword lengths in the high-risk band 5..=9 the
modifier-reset step IS executed on every exit path (the selection-based
attempt begins with one); outside the band the backspace-failure and
direct-input-success exits perform no reset. -/
theorem c2_amended_reset_in_high_risk_band (e : Env) (text : List Char) (kl : Nat)
    (h5 : 5 ≤ kl) (h9 : kl ≤ 9) :
    Ev.reset ∈ (perform_replacement_with_backspace e text kl).1 := by
  have hhr : decide (5 ≤ kl ∧ kl ≤ 9) = true := by
    simp only [decide_eq_true_eq]; exact ⟨h5, h9⟩
  simp only [perform_replacement_with_backspace, hhr, if_true]
  by_cases h1 : e.selectionOk1 <;> by_cases h2 : e.selectionOk2 <;>
    simp [perform_selection_replacement, h1, h2, anchor_cursor_to_line,
      stabilize_cursor_position]

/-- C2 amended, witness at keyword length 5. -/
theorem c2_amended_witness :
    Ev.reset ∈ (perform_replacement_with_backspace envAllOk "Hi".data 5).1 :=
  c2_amended_reset_in_high_risk_band envAllOk "Hi".data 5 (by decide) (by decide)

/-- C3 counterexample: pushing the line feed into the buffer appends it — the
candidate immediately afterwards is `a\n`, not the empty string. -/
theorem c3_counterexample_line_feed_appended :
    (KeyboardState.add_char ⟨"a".data, 100⟩ (Char.ofNat 10)).get_keyword_candidate =
      "a\n".data ∧
    (KeyboardState.add_char ⟨"a".data, 100⟩ (Char.ofNat 10)).get_keyword_candidate ≠ [] := by
  decide

/-- C3 amended: `add_char` has no line-terminator handling (it appends `\n`
like any character); instead, line terminators can never reach the buffer
from key events, because `Key::to_char` maps no virtual key to `\n` or `\r`
(Enter, 0x0D, maps to `None`). -/
theorem c3_amended_line_terminators_unreachable :
    (∀ vk c, to_char vk = some c → c.toNat ≠ 10 ∧ c.toNat ≠ 13) ∧
    to_char 0x0D = none ∧
    (KeyboardState.add_char ⟨"a".data, 100⟩ (Char.ofNat 10)).get_keyword_candidate =
      "a".data ++ [Char.ofNat 10] := by
  refine ⟨?_, by decide, by decide⟩
  intro vk c h
  exact (to_char_facts vk c h).2

/-- C3 amended, witness: the letter key 0x41 yields a character that is not a
line terminator. -/
theorem c3_amended_witness :
    to_char 0x41 = some (Char.ofNat 97) ∧ (Char.ofNat 97).toNat ≠ 10 :=
  ⟨by decide, (c3_amended_line_terminators_unreachable.1 0x41 (Char.ofNat 97) (by decide)).1⟩

/-- C4: `check_for_replacements` is deterministic (equal inputs give equal
results), and when the snippet list splits as `pre ++ s :: post` with `s`
enabled and matching, and no enabled snippet of `pre` matches, the result is
the first match `s` — disabled snippets in `pre` are skipped even if their
keyword matches. -/
theorem c4_deterministic_first_match (t : LocalTime) (st : Settings) (buf : List Char)
    (pre post : List Snippet) (s : Snippet)
    (hsnips : st.snippets = pre ++ s :: post)
    (hen : st.enabled = true) (hsen : s.enabled = true)
    (hmatch : ends_with buf s.keyword = true)
    (hpre : ∀ s2 ∈ pre, s2.enabled = true → ends_with buf s2.keyword = false) :
    (∀ t2 st2 buf2, t2 = t → st2 = st → buf2 = buf →
      check_for_replacements t2 st2 buf2 = check_for_replacements t st buf) ∧
    check_for_replacements t st buf = some (resolveContent t s) := by
  refine ⟨?_, ?_⟩
  · intro t2 st2 buf2 e1 e2 e3; rw [e1, e2, e3]
  · simp only [check_for_replacements, hen, if_true, hsnips]
    exact checkSnippetsLoop_first t buf pre post s hsen hmatch hpre

/-- C4 witness: a disabled snippet with matching keyword `st1` precedes the
enabled `test1` snippet; the enabled one wins. -/
theorem c4_witness :
    check_for_replacements fixedTime settingsOrder "xx test1".data =
      some (resolveContent fixedTime snippetTest1) :=
  (c4_deterministic_first_match fixedTime settingsOrder "xx test1".data
    [snippetDisabledMatch] [] snippetTest1 rfl rfl rfl (by decide) (by decide)).2

/-- C5: for every capacity `N` and pushed character sequence, the candidate
length never exceeds `N` and the candidate is exactly the last
`min(pushed, N)` characters; in particular capacity 10 with `abcdefghijklmno`
leaves `fghijklmno`. -/
theorem c5_rolling_window :
    (∀ (N : Nat) (cs : List Char),
      ((cs.foldl KeyboardState.add_char (KeyboardState.new N)).get_keyword_candidate).length ≤ N ∧
      (cs.foldl KeyboardState.add_char (KeyboardState.new N)).get_keyword_candidate =
        cs.drop (cs.length - N)) ∧
    ("abcdefghijklmno".data.foldl KeyboardState.add_char
        (KeyboardState.new 10)).get_keyword_candidate = "fghijklmno".data := by
  constructor
  · intro N cs
    obtain ⟨g1, g2, g3⟩ := foldl_add_char cs (KeyboardState.new N)
      (by simp [KeyboardState.new])
    constructor
    · simpa [KeyboardState.get_keyword_candidate, KeyboardState.new] using g3
    · simpa [KeyboardState.get_keyword_candidate, KeyboardState.new] using g1
  · decide

/-- C5 witness at a concrete capacity and sequence. -/
theorem c5_witness :
    (("abc".data.foldl KeyboardState.add_char (KeyboardState.new 10)).get_keyword_candidate).length ≤ 10 ∧
    ("abc".data.foldl KeyboardState.add_char (KeyboardState.new 10)).get_keyword_candidate =
      "abc".data.drop ("abc".data.length - 10) :=
  c5_rolling_window.1 10 "abc".data

/-- C6 counterexample: the stored keyword `a=b` normalizes to `a_b` and the
typed buffer `a_b` ends with that normalization, yet `check_for_replacements`
returns `none` — there is no normalized retry in the matcher. -/
theorem c6_counterexample_no_normalized_fallback :
    ends_with (normalize_keyword "a_b".data) (normalize_keyword snippetEq.keyword) = true ∧
    (∀ s ∈ settingsEq.snippets, ends_with "a_b".data s.keyword = false) ∧
    check_for_replacements fixedTime settingsEq "a_b".data = none := by
  decide

/-- C6 amended: the matcher only performs the direct `ends_with` test — it
reports a match exactly when the settings are enabled and some enabled
snippet's stored keyword is a direct suffix of the candidate.  The
`= ; , → _` normalization happens only when settings are loaded or saved
(`ConfigManager`), never at match time. -/
theorem c6_amended_direct_suffix_only (t : LocalTime) (st : Settings) (buf : List Char) :
    (check_for_replacements t st buf).isSome = true ↔
      (st.enabled = true ∧
        ∃ s ∈ st.snippets, s.enabled = true ∧ ends_with buf s.keyword = true) := by
  by_cases hen : st.enabled = true
  · simp only [check_for_replacements, hen, if_true, true_and]
    exact checkSnippetsLoop_isSome t buf st.snippets
  · simp only [check_for_replacements, if_neg hen]
    simp [hen]

/-- C6 amended, witness: a direct suffix match is reported. -/
theorem c6_amended_witness :
    (check_for_replacements fixedTime settingsTest "This is a test1".data).isSome = true :=
  (c6_amended_direct_suffix_only fixedTime settingsTest "This is a test1".data).mpr
    ⟨rfl, snippetTest1, by decide, rfl, by decide⟩

/-- C7: the claim (and the repository's own test `test_format_time`) says
`format_dynamic_content` on `\x7bdate:HH:mm:ss\x7d` yields 8 characters
`dd:dd:dd`.  Because the `contains("HH")` pre-check routes the WHOLE template
through `format_date`, the literal wrapper survives: the result is
`\x7bdate:12:34:56\x7d` — 15 characters, not 8. -/
theorem c7_date_wrapper_retained :
    format_dynamic_content fixedTime "\x7bdate:HH:mm:ss\x7d".data =
      "\x7bdate:12:34:56\x7d".data ∧
    (format_dynamic_content fixedTime "\x7bdate:HH:mm:ss\x7d".data).length = 15 ∧
    (format_dynamic_content fixedTime "\x7bdate:HH:mm:ss\x7d".data).length ≠ 8 := by
  refine ⟨by decide, by decide, by decide⟩

/-- C8 counterexample: on a SUCCESSFUL paste the replacement text `XYZ` is
left on the clipboard; the original contents `orig` are not restored. -/
theorem c8_counterexample_clipboard_not_restored :
    (perform_replacement_with_backspace envPasteSucceeds "XYZ".data 3).2 = true ∧
    clipAfter "orig".data (perform_replacement_with_backspace envPasteSucceeds "XYZ".data 3).1 =
      "XYZ".data ∧
    "XYZ".data ≠ "orig".data := by
  decide

/-- C8 amended: the saved clipboard text is restored only on the exit path
where BOTH paste shortcuts fail; there the function returns `false` with the
original clipboard contents back in place. -/
theorem c8_amended_restore_only_on_paste_failure (e : Env) (text : List Char) (kl : Nat)
    (h1 : ¬(5 ≤ kl ∧ kl ≤ 9)) (h2 : e.backspaceOk = true) (h3 : e.directOk = false)
    (h4 : e.clipboardOk = true) (h5 : e.setTextOk = true)
    (h6 : e.pasteSimpleOk = false) (h7 : e.pasteAltOk = false) :
    (perform_replacement_with_backspace e text kl).2 = false ∧
    clipAfter e.clip0 (perform_replacement_with_backspace e text kl).1 = e.clip0 := by
  have hhr : decide (5 ≤ kl ∧ kl ≤ 9) = false := by
    simp only [decide_eq_false_iff_not]; exact h1
  simp only [perform_replacement_with_backspace, hhr, Bool.false_eq_true, if_false]
  by_cases hk : kl = 0 <;>
    simp only [backspacePhase, simulate_backspace, simulate_direct_char_input,
      simulate_safe_direct_input, clipboardPhase, simulate_paste_simple,
      simulate_paste_alternative, h2, h3, h4, h5, h6, h7, hk, Bool.false_eq_true,
      if_false, if_true, ite_true, ite_false] <;>
    split_ifs <;>
    refine ⟨rfl, ?_⟩ <;>
    simp [clipAfter_append, clipAfter_replicate_backspace, clipAfter]

/-- C8 amended, witness. -/
theorem c8_amended_witness :
    (perform_replacement_with_backspace envPasteFails "XYZ".data 3).2 = false ∧
    clipAfter envPasteFails.clip0
      (perform_replacement_with_backspace envPasteFails "XYZ".data 3).1 =
      envPasteFails.clip0 :=
  c8_amended_restore_only_on_paste_failure envPasteFails "XYZ".data 3
    (by decide) rfl rfl rfl rfl rfl rfl

/-- C9 counterexample: for keyword length 21 the trace contains 21 backspace
pairs — more than the claimed safety ceiling of 20; no clamping exists. -/
theorem c9_counterexample_twentyone_backspaces :
    ((perform_replacement_with_backspace envAllOk "Hi".data 21).1.count Ev.backspace) = 21 ∧
    ¬((21 : Nat) ≤ 20) := by
  decide

/-- C9 amended: outside the high-risk band the pipeline always reaches
`simulate_backspace`, which issues EXACTLY `keyword_length` backspace pairs —
the count is passed through unclamped (`adjusted_length = keyword_length`). -/
theorem c9_amended_exact_backspace_count (e : Env) (text : List Char) (kl : Nat)
    (h : ¬(5 ≤ kl ∧ kl ≤ 9)) :
    ((perform_replacement_with_backspace e text kl).1.count Ev.backspace) = kl := by
  have hhr : decide (5 ≤ kl ∧ kl ≤ 9) = false := by
    simp only [decide_eq_false_iff_not]; exact h
  simp only [perform_replacement_with_backspace, hhr, Bool.false_eq_true, if_false]
  have hcp : ∀ hr, ((clipboardPhase e text hr).1.count Ev.backspace) = 0 := by
    intro hr
    simp only [clipboardPhase, simulate_paste_simple, simulate_paste_alternative,
      anchor_cursor_to_line]
    split_ifs <;>
      simp [List.count_append, List.count_cons, List.count_nil]
  by_cases hk : kl = 0 <;>
    simp only [backspacePhase, simulate_backspace, simulate_direct_char_input,
      simulate_safe_direct_input, hk, if_true, if_false, ite_true, ite_false,
      Bool.false_eq_true] <;>
    split_ifs <;>
    simp_all [List.count_append, List.count_cons, List.count_nil,
      List.count_replicate_self, hcp]

/-- C9 amended, witness at keyword length 3. -/
theorem c9_amended_witness :
    ((perform_replacement_with_backspace envAllOk "Hi".data 3).1.count Ev.backspace) = 3 :=
  c9_amended_exact_backspace_count envAllOk "Hi".data 3 (by decide)

set_option maxRecDepth 4096 in
/-- C10: every letter virtual key 0x41..0x5A maps to the corresponding
LOWERCASE letter (no modifier state is consulted — `to_char` has none to
consult); consequently the buffer built from key events never holds an
uppercase character, and a keyword containing an uppercase letter is never a
suffix of any reachable candidate. -/
theorem c10_letters_lowercase_never_match_uppercase :
    (∀ vk, vk < 91 → 65 ≤ vk →
      to_char vk = some (Char.ofNat (97 + (vk - 65))) ∧
      (Char.ofNat (97 + (vk - 65))).isLower = true) ∧
    (∀ N evs x, x ∈ (bufferOfEvents N evs).get_keyword_candidate → x.isUpper = false) ∧
    (∀ N evs kw, (∃ c ∈ kw, c.isUpper = true) →
      ends_with ((bufferOfEvents N evs).get_keyword_candidate) kw = false) := by
  have hbuf : ∀ N evs x, x ∈ (bufferOfEvents N evs).buffer → x.isUpper = false := by
    intro N evs x hx
    exact buffer_no_upper_aux evs (KeyboardState.new N) (by intro y hy; cases hy) x hx
  refine ⟨by decide, hbuf, ?_⟩
  intro N evs kw hex
  rcases hex with ⟨c, hc, hup⟩
  have hfalse : ¬ (kw.isSuffixOf ((bufferOfEvents N evs).buffer) = true) := by
    intro htrue
    rw [List.isSuffixOf_iff_suffix] at htrue
    obtain ⟨pre2, hpre2⟩ := htrue
    have hcm : c ∈ (bufferOfEvents N evs).buffer := by
      rw [← hpre2]; exact List.mem_append.mpr (Or.inr hc)
    have hcu := hbuf N evs c hcm
    rw [hup] at hcu
    cases hcu
  simp only [ends_with, KeyboardState.get_keyword_candidate]
  exact Bool.eq_false_iff.mpr hfalse

/-- C10 witness: the `B` key (0x42) yields lowercase `b`, and the typed buffer
from keys `A` `B` never matches the uppercase keyword `A`. -/
theorem c10_witness :
    to_char 66 = some (Char.ofNat 98) ∧
    ends_with ((bufferOfEvents 100 [(0x0100, 0x41), (0x0100, 0x42)]).get_keyword_candidate)
      "A".data = false := by
  constructor
  · have h := (c10_letters_lowercase_never_match_uppercase.1 66 (by decide) (by decide)).1
    simpa using h
  · exact c10_letters_lowercase_never_match_uppercase.2.2 100
      [(0x0100, 0x41), (0x0100, 0x42)] "A".data ⟨Char.ofNat 65, by decide, by decide⟩

end SwiftType
